import Mathlib

/-!
Verification development for the "sort" chat-bot (src/bot.py).

The embedding below translates the bot's pure core into Lean:

* Python strings are modelled as List Char (ASCII semantics for the
  character classes that the source's regexes and str methods use).
* natural_sort_key (bot.py lines 218-222) produces a list of tokens,
  where a maximal digit run becomes a numeric token and a maximal
  non-digit run becomes a lower-cased text token.
* Comparison of two sort keys models CPython's list comparison: tokens
  are compared pairwise; comparing an int token with a str token raises
  TypeError in Python 3, which the model renders as Option.none.
* safe_filename / infer_name_from_message (lines 188-216) are modelled
  directly, with strftime of the fixed pattern YYYYMMDD_HHMMSS modelled
  on calendar-valid field values.
* The session store (a dict keyed by chat id and user id) is modelled
  as a function from keys to Option Session, and each handler
  (first_cmd, cancel_cmd, handle_media, last_cmd) as a pure store
  transformer returning the replies it sends.  Python's sorted, a
  stable sort driven by key comparison, is modelled as a stable
  insertion sort over the fallible comparator; a comparison that would
  raise TypeError makes the whole sort return none, mirroring the
  handler aborting on the exception.
-/

/-- A token of a natural sort key: a digit run parsed as an integer, or a
non-digit run kept as (lower-cased) text.  Models the elements of the list
built by natural_sort_key in bot.py. -/
inductive Token
  | num (n : Nat)
  | str (s : List Char)
deriving DecidableEq

/-- Python whitespace class (ASCII part of the regex class used by
safe_filename): space, tab, newline, carriage return, vertical tab,
form feed. -/
def pyIsSpace (c : Char) : Bool :=
  c = ' ' || c = '\t' || c = '\n' || c = '\r' || c = '\x0b' || c = '\x0c'

/-- Collapse maximal whitespace runs to a single space character; the
Bool argument records whether the previously emitted character was the
space standing for a run still in progress.  Models
re.sub of a whitespace-run pattern with a single space (bot.py line 189). -/
def collapseAux : Bool → List Char → List Char
  | _, [] => []
  | prevSpace, c :: cs =>
    if pyIsSpace c then
      if prevSpace then collapseAux true cs
      else ' ' :: collapseAux true cs
    else c :: collapseAux false cs

def collapseWs (l : List Char) : List Char := collapseAux false l

/-- Python str.strip(): drop whitespace from both ends. -/
def stripWs (l : List Char) : List Char :=
  ((l.dropWhile pyIsSpace).reverse.dropWhile pyIsSpace).reverse

/-- bot.py lines 188-192: collapse whitespace runs, strip, and fall back to
the literal "unnamed" when the result is empty. -/
def safe_filename (name : List Char) : List Char :=
  let n := stripWs (collapseWs name)
  if n.isEmpty then "unnamed".data else n

/-- Split a string into the maximal runs matched by the regex
alternation of a digit run with a non-digit run (bot.py line 221); the
Bool argument is the digit-ness of the run being accumulated and the
first list its characters in reverse. -/
def tokenizeAux (d : Bool) (cur : List Char) : List Char → List (List Char)
  | [] => [cur.reverse]
  | c :: cs =>
    if c.isDigit = d then tokenizeAux d (c :: cur) cs
    else cur.reverse :: tokenizeAux c.isDigit [c] cs

def tokenize : List Char → List (List Char)
  | [] => []
  | c :: cs => tokenizeAux c.isDigit [c] cs

/-- Python int() of a decimal digit run. -/
def digitsToNat (l : List Char) : Nat :=
  l.foldl (fun acc c => 10 * acc + (c.toNat - 48)) 0

/-- Python str.isdigit(): nonempty and all digits (ASCII model). -/
def pyIsDigitRun (l : List Char) : Bool := !l.isEmpty && l.all Char.isDigit

/-- bot.py lines 218-222: the natural sort key of a string.  Each maximal
digit run becomes a numeric token via int(), each other run a text token
via str.lower(). -/
def natural_sort_key (s : List Char) : List Token :=
  (tokenize s).map fun t =>
    if pyIsDigitRun t then Token.num (digitsToNat t)
    else Token.str (t.map Char.toLower)

/-- Three-way comparison of nonnegative integers, modelling Python int
comparison. -/
def natCmp (a b : Nat) : Ordering :=
  if a < b then .lt else if b < a then .gt else .eq

/-- Python string comparison compares code points. -/
def charCmp (a b : Char) : Ordering := natCmp a.toNat b.toNat

/-- Python lexicographic string comparison. -/
def lexCmp : List Char → List Char → Ordering
  | [], [] => .eq
  | [], _ :: _ => .lt
  | _ :: _, [] => .gt
  | a :: as, b :: bs =>
    match charCmp a b with
    | .eq => lexCmp as bs
    | o => o

/-- Comparison of two tokens as CPython compares the corresponding list
elements: int with int numerically, str with str lexicographically, and
int with str is a TypeError, modelled as none. -/
def cmpTok : Token → Token → Option Ordering
  | .num a, .num b => some (natCmp a b)
  | .str a, .str b => some (lexCmp a b)
  | _, _ => none

/-- CPython comparison of two key lists: pairwise on tokens, a strict
prefix is smaller; none when a performed element comparison is a
TypeError. -/
def cmpKey : List Token → List Token → Option Ordering
  | [], [] => some .eq
  | [], _ :: _ => some .lt
  | _ :: _, [] => some .gt
  | a :: as, b :: bs =>
    match cmpTok a b with
    | none => none
    | some .eq => cmpKey as bs
    | some o => some o

/-- The timestamp fields the source reads off a datetime value.  Fields
are assumed in calendar range (year below 10000, the rest below 100), as
the datetime type guarantees. -/
structure DateTime where
  year : Nat
  month : Nat
  day : Nat
  hour : Nat
  minute : Nat
  second : Nat
deriving DecidableEq

/-- The decimal digit characters, indexed by digit value. -/
def digitChar : Nat → Char
  | 0 => '0'
  | 1 => '1'
  | 2 => '2'
  | 3 => '3'
  | 4 => '4'
  | 5 => '5'
  | 6 => '6'
  | 7 => '7'
  | 8 => '8'
  | 9 => '9'
  | _ => '?'

/-- Two-digit zero-padded decimal field, as strftime renders the month,
day, hour, minute and second directives for in-range values. -/
def pad2 (n : Nat) : List Char := [digitChar (n / 10 % 10), digitChar (n % 10)]

/-- Four-digit zero-padded decimal field, as strftime renders the year
directive for in-range values. -/
def pad4 (n : Nat) : List Char :=
  [digitChar (n / 1000 % 10), digitChar (n / 100 % 10),
   digitChar (n / 10 % 10), digitChar (n % 10)]

/-- strftime of the fixed pattern used at bot.py line 208: an eight-digit
date, an underscore, and a six-digit time. -/
def fmtTs (d : DateTime) : List Char :=
  pad4 d.year ++ pad2 d.month ++ pad2 d.day ++
    '_' :: (pad2 d.hour ++ pad2 d.minute ++ pad2 d.second)

/-- A media attachment as the inference logic probes it: only its
optional file_name attribute matters. -/
structure Media where
  file_name : Option (List Char)
deriving DecidableEq

/-- The fields of a Telegram message that the handlers read.  For photo
and voice the source only tests truthiness of the attachment, so they are
Bools; document, video, audio and animation carry an optional file name. -/
structure Message where
  message_id : Nat
  document : Option Media
  video : Option Media
  audio : Option Media
  animation : Option Media
  photo : Bool
  voice : Bool
  caption : Option (List Char)
  date : Option DateTime
deriving DecidableEq

/-- The Python condition "attachment and attachment.file_name": the
attachment is present and its file name is neither None nor the empty
string (the empty string is falsy). -/
def truthyName : Option Media → Option (List Char)
  | some m =>
    match m.file_name with
    | some s => if s.isEmpty then none else some s
    | none => none
  | none => none

/-- The timestamp-synthesized base name of bot.py lines 208-214: a type
label (photo, voice, or media) followed by an underscore and the
formatted timestamp of the message date, or of the current time when the
date is absent. -/
def ts_base (now : DateTime) (msg : Message) : List Char :=
  let ts := fmtTs (msg.date.getD now)
  if msg.photo then "photo_".data ++ ts
  else if msg.voice then "voice_".data ++ ts
  else "media_".data ++ ts

/-- The raw string that infer_name_from_message (bot.py lines 194-216)
selects before its final safe_filename call: the first truthy explicit
file name in source order, else the caption when truthy, else the
timestamp-synthesized base.  The source applies safe_filename at each
return site; factoring it out after the selection is equivalent. -/
def chosen_base (now : DateTime) (msg : Message) : List Char :=
  match truthyName msg.document with
  | some n => n
  | none =>
    match truthyName msg.video with
    | some n => n
    | none =>
      match truthyName msg.audio with
      | some n => n
      | none =>
        match truthyName msg.animation with
        | some n => n
        | none =>
          match msg.caption with
          | some c => if c.isEmpty then ts_base now msg else c
          | none => ts_base now msg

/-- bot.py lines 194-216.  The current-time argument stands for the
datetime.now call the source makes when the message has no date. -/
def infer_name_from_message (now : DateTime) (msg : Message) : List Char :=
  safe_filename (chosen_base now msg)

/-- bot.py lines 162-167: one captured item.  The date field models the
date_iso string, which is written and never read. -/
structure Item where
  message_id : Nat
  file_name : List Char
  date : DateTime
  msg_type : List Char
deriving DecidableEq

/-- bot.py lines 172-177: one capture session. -/
structure Session where
  chat_id : Int
  user_id : Int
  items : List Item
  collecting : Bool
deriving DecidableEq

/-- The SESSIONS dict (bot.py line 180), keyed by chat id and user id. -/
abbrev Store := Int × Int → Option Session

def emptyStore : Store := fun _ => none

def updateStore (store : Store) (key : Int × Int) (s : Session) : Store :=
  fun k => if k = key then some s else store k

def eraseStore (store : Store) (key : Int × Int) : Store :=
  fun k => if k = key then none else store k

/-- The user-visible replies the handlers can send (bot.py COPY table),
restricted to the templates the modelled handlers use. -/
inductive Reply
  | alreadyCapturing
  | firstStarted
  | notCapturing
  | cancelOk
  | lastNone
  | lastProcessing (count : Nat)
  | lastDone (count : Nat)
  | fileReceived (name : List Char)
  | fileReceivedNoname (name : List Char)
deriving DecidableEq

/-- bot.py line 282: the session placed in the store by first_cmd.  The
source creates it with collecting False and sets the flag True on the
next statement, with no suspension point in between, so between events
the stored session always has collecting True. -/
def newSession (chat user : Int) : Session :=
  { chat_id := chat, user_id := user, items := [], collecting := true }

/-- bot.py lines 272-287: the /first handler. -/
def first_cmd (store : Store) (chat user : Int) : Store × Reply :=
  match store (chat, user) with
  | some s =>
    if s.collecting then (store, .alreadyCapturing)
    else (updateStore store (chat, user) (newSession chat user), .firstStarted)
  | none => (updateStore store (chat, user) (newSession chat user), .firstStarted)

/-- bot.py lines 290-299: the /cancel handler. -/
def cancel_cmd (store : Store) (chat user : Int) : Store × Reply :=
  match store (chat, user) with
  | some s =>
    if s.collecting then (eraseStore store (chat, user), .cancelOk)
    else (store, .notCapturing)
  | none => (store, .notCapturing)

/-- bot.py lines 224-237: which supported media category, if any, the
message carries, probed in source order. -/
def is_supported_media (msg : Message) : Option (List Char) :=
  if msg.document.isSome then some "document".data
  else if msg.photo then some "photo".data
  else if msg.video.isSome then some "video".data
  else if msg.audio.isSome then some "audio".data
  else if msg.voice then some "voice".data
  else if msg.animation.isSome then some "animation".data
  else none

/-- bot.py lines 302-334: the media-collecting handler.  Returns none as
reply when the event is silently ignored. -/
def handle_media (store : Store) (chat user : Int) (now : DateTime)
    (msg : Message) : Store × Option Reply :=
  match store (chat, user) with
  | none => (store, none)
  | some s =>
    if s.collecting then
      match is_supported_media msg with
      | none => (store, none)
      | some mt =>
        let inferred := infer_name_from_message now msg
        let item : Item :=
          { message_id := msg.message_id, file_name := inferred,
            date := msg.date.getD now, msg_type := mt }
        (updateStore store (chat, user) { s with items := s.items ++ [item] },
          some (if inferred = "unnamed".data then Reply.fileReceivedNoname inferred
                else Reply.fileReceived inferred))
    else (store, none)

/-- Comparison of two items by the natural sort key of their file names,
as the key function at bot.py line 358 induces. -/
def cmpItem (a b : Item) : Option Ordering :=
  cmpKey (natural_sort_key a.file_name) (natural_sort_key b.file_name)

/-- Stable insertion of an item into an already sorted list: the new item
goes in front of the first element it does not strictly exceed, so an
element arriving earlier in the original list precedes the equal-key
elements arriving later.  none when a performed key comparison would be a
TypeError in Python. -/
def insertSorted (x : Item) : List Item → Option (List Item)
  | [] => some [x]
  | y :: ys =>
    match cmpItem x y with
    | none => none
    | some .gt => (insertSorted x ys).map (y :: ·)
    | some _ => some (x :: y :: ys)

/-- Model of Python sorted with the natural-sort key function (bot.py
line 358): a stable sort that fails (as the source raises TypeError)
when it must compare a numeric token against a text token. -/
def sortItems : List Item → Option (List Item)
  | [] => some []
  | x :: xs => (sortItems xs).bind (insertSorted x)

/-- bot.py lines 337-375: the /last handler.  The ok argument is the
replay oracle: whether copy_message succeeds for a given message id.
Components of the result: the store after the handler, the replies sent,
and the message ids successfully re-emitted, in emission order.  When
sorted raises TypeError the handler aborts after the processing reply,
replaying nothing and leaving the store unchanged. -/
def last_cmd (store : Store) (chat user : Int) (ok : Nat → Bool) :
    Store × List Reply × List Nat :=
  match store (chat, user) with
  | none => (store, [.notCapturing], [])
  | some s =>
    if s.collecting then
      if s.items.length = 0 then
        (eraseStore store (chat, user), [.lastNone], [])
      else
        match sortItems s.items with
        | none => (store, [.lastProcessing s.items.length], [])
        | some sorted =>
          (eraseStore store (chat, user),
            [.lastProcessing s.items.length, .lastDone s.items.length],
            (sorted.filter (fun it => ok it.message_id)).map (fun it => it.message_id))
    else (store, [.notCapturing], [])

/-- A replay oracle under which every copy_message call succeeds. -/
def okAll : Nat → Bool := fun _ => true

def dt0 : DateTime := ⟨2024, 1, 2, 3, 4, 5⟩

/-- The four-item session of the finish example: items in upload order
b.txt, a.txt, 10.txt, 2.txt. -/
def sessMixed : Session :=
  { chat_id := 1, user_id := 2,
    items :=
      [ { message_id := 11, file_name := "b.txt".data, date := dt0,
          msg_type := "document".data },
        { message_id := 12, file_name := "a.txt".data, date := dt0,
          msg_type := "document".data },
        { message_id := 13, file_name := "10.txt".data, date := dt0,
          msg_type := "document".data },
        { message_id := 14, file_name := "2.txt".data, date := dt0,
          msg_type := "document".data } ],
    collecting := true }

def storeMixed : Store := updateStore emptyStore (1, 2) sessMixed

lemma safe_filename_ne_nil (s : List Char) : safe_filename s ≠ [] := by
  intro heq
  by_cases h : (stripWs (collapseWs s)).isEmpty
  · rw [show safe_filename s = "unnamed".data by simp [safe_filename, h]] at heq
    exact absurd heq (by decide)
  · rw [show safe_filename s = stripWs (collapseWs s) by simp [safe_filename, h]] at heq
    rw [heq] at h
    exact h rfl

lemma collapseAux_true_allWs (s : List Char) (h : ∀ c ∈ s, pyIsSpace c = true) :
    collapseAux true s = [] := by
  induction s with
  | nil => rfl
  | cons c cs ih =>
    have hc : pyIsSpace c = true := h c (List.mem_cons_self c cs)
    simp only [collapseAux, hc, if_true]
    exact ih fun x hx => h x (List.mem_cons_of_mem c hx)

lemma collapseWs_allWs (s : List Char) (hne : s ≠ [])
    (h : ∀ c ∈ s, pyIsSpace c = true) : collapseWs s = [' '] := by
  cases s with
  | nil => exact absurd rfl hne
  | cons c cs =>
    have hc : pyIsSpace c = true := h c (List.mem_cons_self c cs)
    simp only [collapseWs, collapseAux, hc, if_true]
    rw [collapseAux_true_allWs cs fun x hx => h x (List.mem_cons_of_mem c hx)]
    simp

lemma safe_filename_allWs (s : List Char) (hne : s ≠ [])
    (h : ∀ c ∈ s, pyIsSpace c = true) : safe_filename s = "unnamed".data := by
  unfold safe_filename
  rw [collapseWs_allWs s hne h]
  decide

lemma collapseAux_noWs (s : List Char) (b : Bool)
    (h : ∀ c ∈ s, pyIsSpace c = false) : collapseAux b s = s := by
  induction s generalizing b with
  | nil => rfl
  | cons c cs ih =>
    have hc : pyIsSpace c = false := h c (List.mem_cons_self c cs)
    simp only [collapseAux, hc]
    rw [ih false fun x hx => h x (List.mem_cons_of_mem c hx)]
    simp

lemma dropWhile_noWs (s : List Char) (h : ∀ c ∈ s, pyIsSpace c = false) :
    s.dropWhile pyIsSpace = s := by
  cases s with
  | nil => rfl
  | cons c cs =>
    have hc : pyIsSpace c = false := h c (List.mem_cons_self c cs)
    simp [List.dropWhile_cons, hc]

lemma stripWs_noWs (s : List Char) (h : ∀ c ∈ s, pyIsSpace c = false) :
    stripWs s = s := by
  unfold stripWs
  rw [dropWhile_noWs s h]
  rw [dropWhile_noWs s.reverse fun c hc => h c (List.mem_reverse.mp hc)]
  exact List.reverse_reverse s

lemma safe_filename_noWs (s : List Char) (hne : s ≠ [])
    (h : ∀ c ∈ s, pyIsSpace c = false) : safe_filename s = s := by
  unfold safe_filename
  rw [show collapseWs s = s from collapseAux_noWs s false h, stripWs_noWs s h]
  cases s with
  | nil => exact absurd rfl hne
  | cons c cs => simp

theorem digitChar_not_space : ∀ n, pyIsSpace (digitChar n) = false
  | 0 => rfl
  | 1 => rfl
  | 2 => rfl
  | 3 => rfl
  | 4 => rfl
  | 5 => rfl
  | 6 => rfl
  | 7 => rfl
  | 8 => rfl
  | 9 => rfl
  | _ + 10 => rfl

lemma pad2_not_space (n : Nat) : ∀ c ∈ pad2 n, pyIsSpace c = false := by
  intro c hc
  simp only [pad2, List.mem_cons, List.not_mem_nil, or_false] at hc
  rcases hc with h | h <;> rw [h] <;> exact digitChar_not_space _

lemma pad4_not_space (n : Nat) : ∀ c ∈ pad4 n, pyIsSpace c = false := by
  intro c hc
  simp only [pad4, List.mem_cons, List.not_mem_nil, or_false] at hc
  rcases hc with h | h | h | h <;> rw [h] <;> exact digitChar_not_space _

lemma fmtTs_not_space (d : DateTime) : ∀ c ∈ fmtTs d, pyIsSpace c = false := by
  intro c hc
  simp only [fmtTs, List.mem_append, List.mem_cons] at hc
  rcases hc with ((h | h) | h) | h | (h | h) | h
  · exact pad4_not_space _ c h
  · exact pad2_not_space _ c h
  · exact pad2_not_space _ c h
  · rw [h]; rfl
  · exact pad2_not_space _ c h
  · exact pad2_not_space _ c h
  · exact pad2_not_space _ c h

lemma all_not_space_of_mem (c : Char) (s : List Char)
    (hs : s.all (fun x => !pyIsSpace x) = true) (h : c ∈ s) : pyIsSpace c = false := by
  have := List.all_eq_true.mp hs c h
  simpa using this

lemma ts_base_not_space (now : DateTime) (msg : Message) :
    ∀ c ∈ ts_base now msg, pyIsSpace c = false := by
  intro c hc
  simp only [ts_base] at hc
  split at hc
  · rcases List.mem_append.mp hc with h | h
    · exact all_not_space_of_mem c _ (by decide) h
    · exact fmtTs_not_space _ c h
  · split at hc
    · rcases List.mem_append.mp hc with h | h
      · exact all_not_space_of_mem c _ (by decide) h
      · exact fmtTs_not_space _ c h
    · rcases List.mem_append.mp hc with h | h
      · exact all_not_space_of_mem c _ (by decide) h
      · exact fmtTs_not_space _ c h

lemma ts_base_ne_nil (now : DateTime) (msg : Message) : ts_base now msg ≠ [] := by
  simp only [ts_base]
  split
  · simp
  · split <;> simp

lemma safe_filename_ts_base (now : DateTime) (msg : Message) :
    safe_filename (ts_base now msg) = ts_base now msg :=
  safe_filename_noWs _ (ts_base_ne_nil now msg) (ts_base_not_space now msg)

lemma natCmp_self (a : Nat) : natCmp a a = .eq := by
  unfold natCmp
  simp

lemma lexCmp_self (s : List Char) : lexCmp s s = .eq := by
  induction s with
  | nil => rfl
  | cons c cs ih =>
    simp only [lexCmp, charCmp, natCmp_self]
    exact ih

lemma cmpTok_self (t : Token) : cmpTok t t = some .eq := by
  cases t with
  | num n => simp [cmpTok, natCmp_self]
  | str s => simp [cmpTok, lexCmp_self]

lemma cmpKey_self (k : List Token) : cmpKey k k = some .eq := by
  induction k with
  | nil => rfl
  | cons t ts ih =>
    simp only [cmpKey, cmpTok_self]
    exact ih

lemma cmpItem_gt_keys_ne (x y : Item) (h : cmpItem x y = some .gt) :
    natural_sort_key x.file_name ≠ natural_sort_key y.file_name := by
  intro heq
  unfold cmpItem at h
  rw [heq, cmpKey_self] at h
  exact absurd h (by simp)

lemma insertSorted_filter_pos (k : List Token) (x : Item)
    (hx : natural_sort_key x.file_name = k) :
    ∀ l res, insertSorted x l = some res →
      res.filter (fun it => decide (natural_sort_key it.file_name = k)) =
        x :: l.filter (fun it => decide (natural_sort_key it.file_name = k)) := by
  intro l
  induction l with
  | nil =>
    intro res h
    simp only [insertSorted, Option.some_inj] at h
    subst h
    simp [hx]
  | cons y ys ih =>
    intro res h
    simp only [insertSorted] at h
    cases hc : cmpItem x y with
    | none => rw [hc] at h; exact absurd h (by simp)
    | some o =>
      rw [hc] at h
      cases o with
      | lt =>
        simp only [Option.some_inj] at h
        subst h
        simp [hx]
      | eq =>
        simp only [Option.some_inj] at h
        subst h
        simp [hx]
      | gt =>
        rcases Option.map_eq_some'.mp h with ⟨l2, hl2, hres⟩
        subst hres
        have hy : decide (natural_sort_key y.file_name = k) = false := by
          simp only [decide_eq_false_iff_not]
          intro hyk
          exact cmpItem_gt_keys_ne x y hc (hx.trans hyk.symm)
        simp only [List.filter_cons, hy, if_neg]
        rw [ih l2 hl2]
        simp

lemma insertSorted_filter_neg (k : List Token) (x : Item)
    (hx : natural_sort_key x.file_name ≠ k) :
    ∀ l res, insertSorted x l = some res →
      res.filter (fun it => decide (natural_sort_key it.file_name = k)) =
        l.filter (fun it => decide (natural_sort_key it.file_name = k)) := by
  intro l
  induction l with
  | nil =>
    intro res h
    simp only [insertSorted, Option.some_inj] at h
    subst h
    simp [hx]
  | cons y ys ih =>
    intro res h
    simp only [insertSorted] at h
    cases hc : cmpItem x y with
    | none => rw [hc] at h; exact absurd h (by simp)
    | some o =>
      rw [hc] at h
      cases o with
      | lt =>
        simp only [Option.some_inj] at h
        subst h
        simp [hx]
      | eq =>
        simp only [Option.some_inj] at h
        subst h
        simp [hx]
      | gt =>
        rcases Option.map_eq_some'.mp h with ⟨l2, hl2, hres⟩
        subst hres
        simp only [List.filter_cons]
        rw [ih l2 hl2]

lemma sortItems_filter_eq (k : List Token) :
    ∀ l res, sortItems l = some res →
      res.filter (fun it => decide (natural_sort_key it.file_name = k)) =
        l.filter (fun it => decide (natural_sort_key it.file_name = k)) := by
  intro l
  induction l with
  | nil =>
    intro res h
    simp only [sortItems, Option.some_inj] at h
    subst h
    rfl
  | cons x xs ih =>
    intro res h
    simp only [sortItems] at h
    rcases Option.bind_eq_some.mp h with ⟨m, hm, hins⟩
    by_cases hx : natural_sort_key x.file_name = k
    · rw [insertSorted_filter_pos k x hx m res hins, ih m hm]
      simp [hx]
    · rw [insertSorted_filter_neg k x hx m res hins, ih m hm]
      simp [hx]

lemma insertSorted_length (x : Item) :
    ∀ l res, insertSorted x l = some res → res.length = l.length + 1 := by
  intro l
  induction l with
  | nil =>
    intro res h
    simp only [insertSorted, Option.some_inj] at h
    subst h
    rfl
  | cons y ys ih =>
    intro res h
    simp only [insertSorted] at h
    cases hc : cmpItem x y with
    | none => rw [hc] at h; exact absurd h (by simp)
    | some o =>
      rw [hc] at h
      cases o with
      | lt =>
        simp only [Option.some_inj] at h
        subst h
        simp
      | eq =>
        simp only [Option.some_inj] at h
        subst h
        simp
      | gt =>
        rcases Option.map_eq_some'.mp h with ⟨l2, hl2, hres⟩
        subst hres
        simp only [List.length_cons, ih l2 hl2]

lemma sortItems_length :
    ∀ l res, sortItems l = some res → res.length = l.length := by
  intro l
  induction l with
  | nil =>
    intro res h
    simp only [sortItems, Option.some_inj] at h
    subst h
    rfl
  | cons x xs ih =>
    intro res h
    simp only [sortItems] at h
    rcases Option.bind_eq_some.mp h with ⟨m, hm, hins⟩
    rw [insertSorted_length x m res hins, ih m hm]
    rfl

lemma filter_length_lt {α : Type} (f : α → Bool) :
    ∀ l : List α, (∃ x ∈ l, f x = false) → (l.filter f).length < l.length := by
  intro l
  induction l with
  | nil => rintro ⟨x, hx, _⟩; exact absurd hx (List.not_mem_nil x)
  | cons y ys ih =>
    rintro ⟨x, hx, hfx⟩
    rcases List.mem_cons.mp hx with rfl | hmem
    · simp only [List.filter_cons, hfx, if_neg]
      simp only [Bool.false_eq_true, if_false, List.length_cons]
      exact Nat.lt_succ_of_le (List.length_filter_le f ys)
    · simp only [List.filter_cons]
      split
      · simp only [List.length_cons]
        exact Nat.succ_lt_succ (ih ⟨x, hmem, hfx⟩)
      · exact Nat.lt_succ_of_lt (ih ⟨x, hmem, hfx⟩)

/-- The session-store invariant: every session present in the store has
its collecting flag set. -/
def storeInv (store : Store) : Prop :=
  ∀ k s, store k = some s → s.collecting = true

lemma storeInv_update (store : Store) (key : Int × Int) (s : Session)
    (h : storeInv store) (hs : s.collecting = true) :
    storeInv (updateStore store key s) := by
  intro k t ht
  unfold updateStore at ht
  split at ht
  · obtain rfl := Option.some_inj.mp ht
    exact hs
  · exact h k t ht

lemma storeInv_erase (store : Store) (key : Int × Int) (h : storeInv store) :
    storeInv (eraseStore store key) := by
  intro k t ht
  unfold eraseStore at ht
  split at ht
  · exact absurd ht (by simp)
  · exact h k t ht

lemma first_cmd_inv (store : Store) (h : storeInv store) (chat user : Int) :
    storeInv (first_cmd store chat user).1 := by
  unfold first_cmd
  cases hk : store (chat, user) with
  | none => exact storeInv_update store _ _ h rfl
  | some s =>
    by_cases hc : s.collecting
    · simpa [hk, hc] using h
    · simp only [hk, hc, if_false]
      exact storeInv_update store _ _ h rfl

lemma cancel_cmd_inv (store : Store) (h : storeInv store) (chat user : Int) :
    storeInv (cancel_cmd store chat user).1 := by
  unfold cancel_cmd
  cases hk : store (chat, user) with
  | none => exact h
  | some s =>
    by_cases hc : s.collecting
    · simp only [hc, if_true]
      exact storeInv_erase store _ h
    · simpa [hc] using h

lemma handle_media_inv (store : Store) (h : storeInv store) (chat user : Int)
    (now : DateTime) (msg : Message) :
    storeInv (handle_media store chat user now msg).1 := by
  unfold handle_media
  cases hk : store (chat, user) with
  | none => exact h
  | some s =>
    by_cases hc : s.collecting
    · simp only [hc, if_true]
      cases is_supported_media msg with
      | none => exact h
      | some mt => exact storeInv_update store _ _ h rfl
    · simpa [hc] using h

lemma last_cmd_inv (store : Store) (h : storeInv store) (chat user : Int)
    (ok : Nat → Bool) : storeInv (last_cmd store chat user ok).1 := by
  unfold last_cmd
  cases hk : store (chat, user) with
  | none => exact h
  | some s =>
    by_cases hc : s.collecting
    · simp only [hc, if_true]
      by_cases hn : s.items.length = 0
      · simp only [hn, if_true]
        exact storeInv_erase store _ h
      · simp only [hn, if_false]
        cases sortItems s.items with
        | none => exact h
        | some sorted => exact storeInv_erase store _ h
    · simpa [hc] using h

/-- C1: refutation by evaluation.  The claim asserts that comparing the
sort keys of any two strings is defined, with a lexicographic fallback
when a numeric token meets a text token.  The code has no such fallback:
on the keys of "10.txt" and "a.txt" the first position compares an int
token against a str token, which raises TypeError in Python 3; the
modelled comparison is none (undefined) in both directions, so the
comparison is not a total order relation on sort keys. -/
theorem cmpKey_mixed_tokens_undefined :
    cmpKey (natural_sort_key "10.txt".data) (natural_sort_key "a.txt".data) = none
    ∧ cmpKey (natural_sort_key "a.txt".data) (natural_sort_key "10.txt".data) = none := by
  decide

/-- C2: refutation by evaluation.  Finishing a session holding items
named b.txt, a.txt, 10.txt, 2.txt (in upload order) does not replay them
sorted: Python sorted raises TypeError comparing the key of 10.txt with
the key of a.txt, so the handler aborts after the processing reply,
nothing is replayed, no done report is sent, and the session is still in
the store afterwards. -/
theorem last_cmd_mixed_names_crash :
    sortItems sessMixed.items = none
    ∧ (last_cmd storeMixed 1 2 okAll).2.2 = []
    ∧ (last_cmd storeMixed 1 2 okAll).2.1 = [Reply.lastProcessing 4]
    ∧ (last_cmd storeMixed 1 2 okAll).1 (1, 2) = some sessMixed := by
  decide

/-- C5: for every message and every current time, the inferred name is a
nonempty string, and whenever the normalization of the selected base
string is empty the result is the literal "unnamed". -/
theorem infer_name_nonempty (now : DateTime) (msg : Message) :
    infer_name_from_message now msg ≠ []
    ∧ (stripWs (collapseWs (chosen_base now msg)) = [] →
        infer_name_from_message now msg = "unnamed".data) := by
  constructor
  · exact safe_filename_ne_nil _
  · intro h
    simp [infer_name_from_message, safe_filename, h]

def msgWsCaption : Message :=
  { message_id := 3, document := none, video := none, audio := none,
    animation := none, photo := false, voice := false,
    caption := some " ".data, date := none }

theorem infer_name_nonempty_witness :
    infer_name_from_message dt0 msgWsCaption ≠ []
    ∧ infer_name_from_message dt0 msgWsCaption = "unnamed".data :=
  ⟨(infer_name_nonempty dt0 msgWsCaption).1,
   (infer_name_nonempty dt0 msgWsCaption).2 (by decide)⟩

/-- C6: the natural-sort ordering places file2 before file10 (numeric
runs compare by value) and file10 before file10b (a key that is a strict
prefix of another sorts first). -/
theorem natural_sort_key_chain :
    cmpKey (natural_sort_key "file2".data) (natural_sort_key "file10".data) = some .lt
    ∧ cmpKey (natural_sort_key "file10".data) (natural_sort_key "file10b".data) =
        some .lt := by
  decide

def msgWsName : Message :=
  { message_id := 4, document := some ⟨some "  ".data⟩, video := none,
    audio := none, animation := none, photo := false, voice := false,
    caption := some "hello".data, date := none }

/-- C3: refutation by evaluation.  A document whose file name is two
spaces normalizes to the empty string, yet the explicit-name branch does
not fall through to the caption "hello": the source guards on the raw
truthiness of the name, so safe_filename turns it into "unnamed". -/
theorem infer_whitespace_name_no_fallthrough :
    infer_name_from_message dt0 msgWsName = "unnamed".data
    ∧ "unnamed".data ≠ "hello".data
    ∧ safe_filename "hello".data = "hello".data := by
  decide

/-- C3 amended: the explicit-name branch falls through exactly when the
name attribute is absent or the empty string (an empty name behaves as if
the attribute were missing); an explicit name that is nonempty but all
whitespace does not fall through and yields the literal "unnamed". -/
theorem infer_empty_name_falls_through (now : DateTime) (msg : Message) :
    (infer_name_from_message now { msg with document := some ⟨some []⟩ } =
        infer_name_from_message now { msg with document := none }
      ∧ infer_name_from_message now { msg with video := some ⟨some []⟩ } =
        infer_name_from_message now { msg with video := none }
      ∧ infer_name_from_message now { msg with audio := some ⟨some []⟩ } =
        infer_name_from_message now { msg with audio := none }
      ∧ infer_name_from_message now { msg with animation := some ⟨some []⟩ } =
        infer_name_from_message now { msg with animation := none })
    ∧ ∀ s, s ≠ [] → s.all pyIsSpace = true →
        infer_name_from_message now { msg with document := some ⟨some s⟩ } =
          "unnamed".data := by
  refine ⟨⟨rfl, rfl, rfl, rfl⟩, ?_⟩
  intro s hne hall
  have hse : s.isEmpty = false := by
    cases s with
    | nil => exact absurd rfl hne
    | cons c cs => rfl
  have hmem : ∀ c ∈ s, pyIsSpace c = true := by
    intro c hc
    simpa using List.all_eq_true.mp hall c hc
  have hcb : chosen_base now { msg with document := some ⟨some s⟩ } = s := by
    simp [chosen_base, truthyName, hse]
  show safe_filename (chosen_base now { msg with document := some ⟨some s⟩ }) = _
  rw [hcb]
  exact safe_filename_allWs s hne hmem

theorem infer_empty_name_falls_through_witness :
    infer_name_from_message dt0 { msgWsCaption with document := some ⟨some []⟩ } =
      infer_name_from_message dt0 { msgWsCaption with document := none }
    ∧ infer_name_from_message dt0 { msgWsCaption with document := some ⟨some " ".data⟩ } =
      "unnamed".data :=
  ⟨(infer_empty_name_falls_through dt0 msgWsCaption).1.1,
   (infer_empty_name_falls_through dt0 msgWsCaption).2 " ".data (by decide) (by decide)⟩

def msgPhoto : Message :=
  { message_id := 5, document := none, video := none, audio := none,
    animation := none, photo := true, voice := false, caption := none,
    date := some dt0 }

/-- C4: refutation by evaluation.  An unnamed, caption-less photo dated
2024-01-02 03:04:05 gets the inferred name photo_20240102_030405, with an
underscore between the date and time fields, not the claimed
photo_20240102030405 with fourteen contiguous digits. -/
theorem infer_synthesized_name_has_underscore :
    infer_name_from_message dt0 msgPhoto = "photo_20240102_030405".data
    ∧ "photo_20240102_030405".data ≠ "photo_20240102030405".data := by
  decide

/-- C4 amended: for every event with no truthy explicit file name and a
falsy caption, the inferred name is the type label (photo for photos,
voice for voice notes, media otherwise) followed by an underscore and
the timestamp formatted as an eight-digit date, an underscore and a
six-digit time, taken from the event's date or from the current time
when the date is absent. -/
theorem infer_synthesized_format (now : DateTime) (msg : Message)
    (h1 : truthyName msg.document = none) (h2 : truthyName msg.video = none)
    (h3 : truthyName msg.audio = none) (h4 : truthyName msg.animation = none)
    (h5 : msg.caption = none ∨ msg.caption = some []) :
    infer_name_from_message now msg =
      (if msg.photo then "photo".data
        else if msg.voice then "voice".data
        else "media".data) ++ '_' :: fmtTs (msg.date.getD now) := by
  have hcb : chosen_base now msg = ts_base now msg := by
    unfold chosen_base
    rw [h1, h2, h3, h4]
    rcases h5 with h5 | h5 <;> rw [h5]
    rfl
  show safe_filename (chosen_base now msg) = _
  rw [hcb, safe_filename_ts_base]
  simp only [ts_base]
  by_cases hp : msg.photo
  · rw [if_pos hp, if_pos hp]
    rfl
  · rw [if_neg hp, if_neg hp]
    by_cases hv : msg.voice
    · rw [if_pos hv, if_pos hv]
      rfl
    · rw [if_neg hv, if_neg hv]
      rfl

theorem infer_synthesized_format_witness :
    infer_name_from_message dt0
        { msgPhoto with photo := false, voice := true, date := none } =
      "voice".data ++ '_' :: fmtTs dt0 :=
  infer_synthesized_format dt0
    { msgPhoto with photo := false, voice := true, date := none }
    rfl rfl rfl rfl (Or.inl rfl)

/-- C7: best-effort flush.  When finishing a nonempty collecting session
whose keys sort without error and at least one replay fails, the handler
still attempts every item in sorted order, so the successfully re-emitted
message ids are exactly the sorted items surviving the success oracle, in
their sorted positions; the done report carries the original captured
count (strictly more than the number of successful replays), and the
session is removed.  The source logs and swallows each failure inside the
loop, so a failure never aborts the remaining replays. -/
theorem last_cmd_best_effort (store : Store) (chat user : Int) (ok : Nat → Bool)
    (s : Session) (sorted : List Item)
    (h1 : store (chat, user) = some s) (h2 : s.collecting = true)
    (h0 : s.items ≠ []) (h3 : sortItems s.items = some sorted)
    (hf : ∃ it ∈ sorted, ok it.message_id = false) :
    (last_cmd store chat user ok).2.2 =
      (sorted.filter (fun it => ok it.message_id)).map (fun it => it.message_id)
    ∧ (last_cmd store chat user ok).2.1 =
      [Reply.lastProcessing s.items.length, Reply.lastDone s.items.length]
    ∧ (last_cmd store chat user ok).2.2.length < s.items.length
    ∧ (last_cmd store chat user ok).1 (chat, user) = none := by
  have hlen : ¬s.items.length = 0 := by
    intro h
    exact h0 (List.length_eq_zero.mp h)
  have hred : last_cmd store chat user ok =
      (eraseStore store (chat, user),
        [Reply.lastProcessing s.items.length, Reply.lastDone s.items.length],
        (sorted.filter (fun it => ok it.message_id)).map (fun it => it.message_id)) := by
    unfold last_cmd
    rw [h1]
    simp [h2, hlen, h3]
  rw [hred]
  refine ⟨rfl, rfl, ?_, ?_⟩
  · rw [List.length_map]
    calc (sorted.filter (fun it => ok it.message_id)).length
        < sorted.length := filter_length_lt _ sorted hf
      _ = s.items.length := sortItems_length s.items sorted h3
  · simp [eraseStore]

def iC : Item := ⟨51, "c.txt".data, dt0, "document".data⟩
def iA : Item := ⟨52, "a.txt".data, dt0, "document".data⟩
def iE : Item := ⟨53, "e.txt".data, dt0, "document".data⟩
def iB : Item := ⟨54, "b.txt".data, dt0, "document".data⟩
def iD : Item := ⟨55, "d.txt".data, dt0, "document".data⟩

def sessFive : Session :=
  { chat_id := 1, user_id := 2, items := [iC, iA, iE, iB, iD], collecting := true }

def storeFive : Store := updateStore emptyStore (1, 2) sessFive

def sortedFive : List Item := [iA, iB, iC, iD, iE]

/-- The replay oracle failing exactly on message id 53 (item e.txt). -/
def okNot53 : Nat → Bool := fun n => n != 53

theorem last_cmd_best_effort_witness :
    (last_cmd storeFive 1 2 okNot53).2.2 =
      (sortedFive.filter (fun it => okNot53 it.message_id)).map (fun it => it.message_id)
    ∧ (last_cmd storeFive 1 2 okNot53).2.1 =
      [Reply.lastProcessing 5, Reply.lastDone 5]
    ∧ (last_cmd storeFive 1 2 okNot53).2.2.length < 5
    ∧ (last_cmd storeFive 1 2 okNot53).1 (1, 2) = none :=
  last_cmd_best_effort storeFive 1 2 okNot53 sessFive sortedFive
    (by decide) rfl (by decide) (by decide) (by decide)

/-- C8: a start trigger while a collecting session exists for the same
chat and user leaves the store (hence the session's item list) unchanged
and replies that a capture is already active. -/
theorem first_cmd_already_active (store : Store) (chat user : Int) (s : Session)
    (h1 : store (chat, user) = some s) (h2 : s.collecting = true) :
    first_cmd store chat user = (store, Reply.alreadyCapturing) := by
  unfold first_cmd
  rw [h1]
  simp [h2]

def sessActive : Session :=
  { chat_id := 1, user_id := 2,
    items := [⟨21, "x.txt".data, dt0, "document".data⟩], collecting := true }

def storeActive : Store := updateStore emptyStore (1, 2) sessActive

theorem first_cmd_already_active_witness :
    first_cmd storeActive 1 2 = (storeActive, Reply.alreadyCapturing) :=
  first_cmd_already_active storeActive 1 2 sessActive (by decide) rfl

/-- C9: the flush ordering is stable.  Whenever the sort of the captured
items succeeds, the items of any fixed sort-key class appear in the
sorted output exactly as they appear in the insertion-order list, so two
items with equal natural sort keys are replayed in upload order. -/
theorem sortItems_stable (l res : List Item) (h : sortItems l = some res)
    (k : List Token) :
    res.filter (fun it => decide (natural_sort_key it.file_name = k)) =
      l.filter (fun it => decide (natural_sort_key it.file_name = k)) :=
  sortItems_filter_eq k l res h

def xB : Item := ⟨41, "b.txt".data, dt0, "document".data⟩
def xAupper : Item := ⟨42, "A.txt".data, dt0, "document".data⟩
def xAlower : Item := ⟨43, "a.txt".data, dt0, "document".data⟩

theorem sortItems_stable_witness :
    ([xAupper, xAlower, xB] : List Item).filter
        (fun it => decide (natural_sort_key it.file_name = [Token.str "a.txt".data])) =
      ([xB, xAupper, xAlower] : List Item).filter
        (fun it => decide (natural_sort_key it.file_name = [Token.str "a.txt".data])) :=
  sortItems_stable [xB, xAupper, xAlower] [xAupper, xAlower, xB] (by decide)
    [Token.str "a.txt".data]

/-- C10: every handler preserves the store invariant that each stored
session has its collecting flag set; between events no session is ever
observable with collecting false.  The only write that creates a session
(first_cmd) stores it with the flag set, the media handler copies the
flag of a session that the invariant already covers, and the finish and
abort handlers only delete. -/
theorem handlers_preserve_collecting_inv (store : Store) (h : storeInv store)
    (chat user : Int) (now : DateTime) (msg : Message) (ok : Nat → Bool) :
    storeInv (first_cmd store chat user).1
    ∧ storeInv (cancel_cmd store chat user).1
    ∧ storeInv (handle_media store chat user now msg).1
    ∧ storeInv (last_cmd store chat user ok).1 :=
  ⟨first_cmd_inv store h chat user, cancel_cmd_inv store h chat user,
   handle_media_inv store h chat user now msg, last_cmd_inv store h chat user ok⟩

def msgDoc : Message :=
  { message_id := 7, document := some ⟨some "doc.pdf".data⟩, video := none,
    audio := none, animation := none, photo := false, voice := false,
    caption := none, date := some dt0 }

theorem handlers_preserve_collecting_inv_witness :
    storeInv (first_cmd emptyStore 1 2).1
    ∧ storeInv (cancel_cmd emptyStore 1 2).1
    ∧ storeInv (handle_media emptyStore 1 2 dt0 msgDoc).1
    ∧ storeInv (last_cmd emptyStore 1 2 okAll).1 :=
  handlers_preserve_collecting_inv emptyStore (fun _ _ hks => nomatch hks)
    1 2 dt0 msgDoc okAll
